import Mathlib

/-!
Shallow embedding of the cursor-based pagination engine of
`graphql/schemabuilder/pagination.go` (the thunder repository), together
with theorems settling the frozen claims about it.

Conventions of the embedding:
* Go slices of edges become `List (Edge α)`; the node payload is a type
  parameter `α` (the Go code stores `interface{}`).
* Go `int` / `int64` become `Int`; `*int64` / `*string` become `Option`.
* `getCursorIndex` returns `Option Nat` in place of Go's `-1` sentinel
  (`none` ↔ `-1`); every comparison the Go code performs against the
  returned index is translated on the `some` branch with the exact same
  arithmetic (over `Int` where Go subtracts).
* The cursor codec (`base64(fmt.Sprintf("%v", keyField))`, built from the
  Go standard library and reflection, outside the pagination logic) is
  abstracted as an explicit function `cursorOf : α → String` passed where
  the Go code consults the registered key field.
* Functions that mutate a `Connection` and return an `error` become pure
  functions returning the updated `Connection` paired with
  `Option String` (the error message).
-/

set_option autoImplicit false

namespace Pagination

variable {α : Type}

/-- `Edge` from pagination.go: a node paired with its cursor string. -/
structure Edge (α : Type) where
  Node : α
  Cursor : String
deriving DecidableEq, Repr

/-- `PageInfo` from pagination.go. -/
structure PageInfo where
  HasNextPage : Bool
  EndCursor : String
  HasPrevPage : Bool
  StartCursor : String
  Pages : List String
deriving DecidableEq, Repr

/-- The Go zero value `PageInfo{}`. -/
def PageInfo.zero : PageInfo :=
  { HasNextPage := false, EndCursor := "", HasPrevPage := false,
    StartCursor := "", Pages := [] }

/-- `Connection` from pagination.go. -/
structure Connection (α : Type) where
  TotalCount : Int
  Edges : List (Edge α)
  PageInfo : PageInfo
deriving DecidableEq, Repr

/-- The Go zero value `Connection{}`. -/
def Connection.zero : Connection α :=
  { TotalCount := 0, Edges := [], PageInfo := PageInfo.zero }

/-- `PaginationArgs` from pagination.go: four optional directives. -/
structure PaginationArgs where
  First : Option Int
  Last : Option Int
  After : Option String
  Before : Option String
deriving DecidableEq, Repr

/-- `PaginationArgs` with every directive absent (Go zero value). -/
def PaginationArgs.zero : PaginationArgs :=
  { First := none, Last := none, After := none, Before := none }

/-- `PaginationArgs.Limit` from pagination.go: `First` if set, else `Last`,
else 0. -/
def PaginationArgs.Limit (p : PaginationArgs) : Int :=
  match p.First with
  | some f => f
  | none =>
    match p.Last with
    | some l => l
    | none => 0

/-- `PaginationInfo` from pagination.go; `TotalCountFunc` is an optional
counting closure (`nil` ↔ `none`). -/
structure PaginationInfo where
  TotalCountFunc : Option (Unit → Int)
  HasNextPage : Bool
  HasPrevPage : Bool

/-- `PaginationInfo.TotalCount` from pagination.go: 0 when no counting
function was supplied. -/
def PaginationInfo.TotalCount (i : PaginationInfo) : Int :=
  match i.TotalCountFunc with
  | none => 0
  | some f => f ()

/-- A `PaginationInfo` with no counting function and both flags false. -/
def PaginationInfo.zero : PaginationInfo :=
  { TotalCountFunc := none, HasNextPage := false, HasPrevPage := false }

/-- `safeInt64Ptr` from pagination.go: dereference a `*int64`, treating
`nil` as 0. -/
def safeInt64Ptr (i : Option Int) : Int :=
  match i with
  | none => 0
  | some v => v

/-- `getCursorIndex` from pagination.go: index of the first edge whose
cursor equals `cursor`; Go returns `-1` when absent, embedded as `none`. -/
def getCursorIndex (edges : List (Edge α)) (cursor : String) : Option Nat :=
  edges.findIdx? (fun e => e.Cursor == cursor)

/-- The triple returned by `applyCursorsToAllEdges` (Go returns
`([]Edge, bool, bool)` in the order edges, elemsAfter, elemsBefore). -/
structure CursorCutResult (α : Type) where
  edges : List (Edge α)
  elemsAfter : Bool
  elemsBefore : Bool
deriving DecidableEq, Repr

/-- `applyCursorsToAllEdges` from pagination.go. `edgeCount` is captured
before any cut; the `after` cut runs first, then the `before` cut runs on
the already-cut list, but its `elemsAfter` comparison still uses the
pre-cut `edgeCount`. -/
def applyCursorsToAllEdges (edges : List (Edge α)) (before after : Option String) :
    CursorCutResult α :=
  let edgeCount := edges.length
  let afterCut :=
    match after with
    | some a =>
      match getCursorIndex edges a with
      | some i => (edges.drop (i + 1), decide (i ≠ 0))
      | none => (edges, false)
    | none => (edges, false)
  let beforeCut :=
    match before with
    | some b =>
      match getCursorIndex afterCut.1 b with
      | some i => (afterCut.1.take i, decide ((i : Int) ≠ (edgeCount : Int) - 1))
      | none => (afterCut.1, false)
    | none => (afterCut.1, false)
  { edges := beforeCut.1, elemsAfter := beforeCut.2, elemsBefore := afterCut.2 }

/-- `Connection.paginateManually` from pagination.go, as a pure function:
it returns the updated connection together with the optional client error.
The Go method first applies the cursor cuts and sets the page-info flags,
then checks the error conditions (returning early), then truncates for
`First` and for `Last`. -/
def paginateManually (c : Connection α) (args : PaginationArgs) :
    Connection α × Option String :=
  let cut := applyCursorsToAllEdges c.Edges args.Before args.After
  let c1 : Connection α :=
    { c with
      Edges := cut.edges,
      PageInfo := { c.PageInfo with
        HasNextPage := args.Before.isSome && cut.elemsAfter,
        HasPrevPage := args.After.isSome && cut.elemsBefore } }
  if safeInt64Ptr args.First < 0 || safeInt64Ptr args.Last < 0 then
    (c1, some "first/last cannot be a negative integer")
  else if args.First.isSome && args.Last.isSome then
    (c1, some "Cannot use both first and last together")
  else
    let c2 :=
      match args.First with
      | some f =>
        if (c1.Edges.length : Int) > f then
          { c1 with
            Edges := c1.Edges.take f.toNat,
            PageInfo := { c1.PageInfo with HasNextPage := true } }
        else c1
      | none => c1
    let c3 :=
      match args.Last with
      | some l =>
        if (c2.Edges.length : Int) > l then
          { c2 with
            Edges := c2.Edges.drop (c2.Edges.length - l.toNat),
            PageInfo := { c2.PageInfo with HasPrevPage := true } }
        else c2
      | none => c2
    (c3, none)

/-- `Connection.setCursors` from pagination.go: start/end cursors of the
current page, untouched when the edge list is empty. -/
def setCursors (c : Connection α) : Connection α :=
  match c.Edges with
  | [] => c
  | e :: rest =>
    { c with
      PageInfo := { c.PageInfo with
        EndCursor := ((e :: rest).getLast (List.cons_ne_nil e rest)).Cursor,
        StartCursor := e.Cursor } }

/-- `Connection.externallySetPageInfo` from pagination.go: overwrite the
two flags and the total count from the resolver-supplied info. -/
def externallySetPageInfo (c : Connection α) (info : PaginationInfo) :
    Connection α :=
  { c with
    TotalCount := info.TotalCount,
    PageInfo := { c.PageInfo with
      HasNextPage := info.HasNextPage,
      HasPrevPage := info.HasPrevPage } }

/-- `getEdges` from pagination.go: one edge per node, in order, with the
cursor derived from the node (the reflection + base64 codec is abstracted
as `cursorOf`). -/
def getEdges (cursorOf : α → String) (nodes : List α) : List (Edge α) :=
  nodes.map (fun n => { Node := n, Cursor := cursorOf n })

/-- `getPages` from pagination.go: the Go for-loop over the indexed edges,
folding the `pages` accumulator. On index 0 it appends `""`; when
`limit ≠ 0`, the index is not the last index and `(i+1) % limit == 0`
(Go's truncated `%`, i.e. `Int.tmod`), it appends the edge's cursor. -/
def getPages (edges : List (Edge α)) (limit : Int) : List String :=
  edges.enum.foldl
    (fun pages ie =>
      let pages := if ie.1 = 0 then pages ++ [""] else pages
      if limit = 0 then pages
      else if ie.1 = edges.length - 1 then pages
      else if ((ie.1 : Int) + 1).tmod limit = 0 then pages ++ [ie.2.Cursor]
      else pages)
    []

/-- The connection literal built inside `getConnection`
(pagination.go lines 375-384): full edge set, full count, pages over the
full edge set with `args.Limit()`. -/
def initialConnection (cursorOf : α → String) (nodes : List α)
    (args : PaginationArgs) : Connection α :=
  { TotalCount := (nodes.length : Int),
    Edges := getEdges cursorOf nodes,
    PageInfo := { PageInfo.zero with
      Pages := getPages (getEdges cursorOf nodes) args.Limit } }

/-- `connectionContext.getConnection` from pagination.go. The Go receiver's
`IsExternallyManaged()` is the `isExternallyManaged` flag and its key-field
codec is `cursorOf`; `nodes` is `castSlice(out[0])` and `info` is the
`PaginationInfo` read from `out[1]` when externally managed. -/
def getConnection (cursorOf : α → String) (isExternallyManaged : Bool)
    (nodes : List α) (info : PaginationInfo) (args : PaginationArgs) :
    Connection α × Option String :=
  if nodes.length = 0 then (Connection.zero, none)
  else
    match paginateManually (initialConnection cursorOf nodes args) args with
    | (_, some err) => (Connection.zero, some err)
    | (conn, none) =>
      let conn1 := setCursors conn
      let conn2 := if isExternallyManaged then externallySetPageInfo conn1 info
                   else conn1
      (conn2, none)

/-- `ConnectionArgs` from pagination.go; the user-facing args bag
(`interface{}` in Go) is the type parameter `β`. -/
structure ConnectionArgs (β : Type) where
  First : Option Int
  Last : Option Int
  After : Option String
  Before : Option String
  Args : β

/-- The extraction of `PaginationArgs` out of `ConnectionArgs` performed at
the top of `extractPaginatedRetAndErr` (pagination.go lines 603-610). -/
def ConnectionArgs.toPaginationArgs {β : Type} (ca : ConnectionArgs β) :
    PaginationArgs :=
  { First := ca.First, Last := ca.Last, After := ca.After, Before := ca.Before }

/-- `connectionContext.extractPaginatedRetAndErr` from pagination.go, after
the pagination args have been extracted (either from `ConnectionArgs` or
from the embedded struct field): build the connection, return its error if
any; otherwise, when the resolver signature has an error slot (`hasError`)
and the resolver's returned error value (`lastOutErr`, the last entry of
`out`) is non-nil, return that error; otherwise return the connection. -/
def extractPaginatedRetAndErr (cursorOf : α → String)
    (isExternallyManaged hasError : Bool) (nodes : List α)
    (info : PaginationInfo) (lastOutErr : Option String)
    (paginationArgs : PaginationArgs) : Except String (Connection α) :=
  match getConnection cursorOf isExternallyManaged nodes info paginationArgs with
  | (_, some err) => Except.error err
  | (result, none) =>
    if hasError then
      match lastOutErr with
      | some e => Except.error e
      | none => Except.ok result
    else Except.ok result

/-- `connectionContext` from pagination.go, reduced to the two fields that
drive mode detection and validation. `PaginationArgsIndex` is `-1` when the
resolver's argument struct does not embed `PaginationArgs`. -/
structure ConnectionContext where
  ReturnsPageInfo : Bool
  PaginationArgsIndex : Int
deriving DecidableEq, Repr

/-- `connectionContext.embedsPaginationArgs` from pagination.go. -/
def ConnectionContext.embedsPaginationArgs (c : ConnectionContext) : Bool :=
  decide (c.PaginationArgsIndex ≠ -1)

/-- `connectionContext.IsExternallyManaged` from pagination.go. -/
def ConnectionContext.IsExternallyManaged (c : ConnectionContext) : Bool :=
  c.embedsPaginationArgs || c.ReturnsPageInfo

/-- `connectionContext.Validate` from pagination.go, as an optional error
message (Go returns `error`, nil ↔ `none`). -/
def ConnectionContext.Validate (c : ConnectionContext) : Option String :=
  if c.IsExternallyManaged && !(c.embedsPaginationArgs && c.ReturnsPageInfo) then
    some "If pagination args are embedded then pagination info must be included as a return value"
  else none

/-- The boundary-cursor condition stated by the page-marker claim: an edge
at 0-based index `i` contributes its cursor when `limit ≠ 0`, `i` is not
the last index, and `(i+1) % limit = 0` (Go's truncated `%`). -/
def boundaryCursorSel (limit : Int) (lastIdx : Nat) (ie : Nat × Edge α) :
    Option String :=
  if limit ≠ 0 ∧ ie.1 ≠ lastIdx ∧ ((ie.1 : Int) + 1).tmod limit = 0 then
    some ie.2.Cursor
  else none

/-- The strings one iteration of the `getPages` loop appends to `pages`:
`""` on index 0, then possibly the edge's cursor. -/
def pageContrib (limit : Int) (lastIdx : Nat) (ie : Nat × Edge α) :
    List String :=
  (if ie.1 = 0 then [""] else []) ++
    (if limit = 0 then []
     else if ie.1 = lastIdx then []
     else if ((ie.1 : Int) + 1).tmod limit = 0 then [ie.2.Cursor]
     else [])

/-- Five edges with distinct cursors, mirroring the five-item lists used in
the repository's connection tests. -/
def exEdges5 : List (Edge Nat) :=
  [⟨1, "c1"⟩, ⟨2, "c2"⟩, ⟨3, "c3"⟩, ⟨4, "c4"⟩, ⟨5, "c5"⟩]

/-- A two-edge connection used to instantiate the truncation theorems. -/
def exConn2 : Connection Nat :=
  { TotalCount := 2, Edges := [⟨1, "c1"⟩, ⟨2, "c2"⟩], PageInfo := PageInfo.zero }

/-- A one-edge list used to instantiate the cursor-miss theorems. -/
def exEdges1 : List (Edge Nat) :=
  [⟨1, "c1"⟩]

/-- Arguments requesting only `first: 1`. -/
def exArgsFirst1 : PaginationArgs :=
  { First := some 1, Last := none, After := none, Before := none }

/-- Arguments requesting only `last: 1`. -/
def exArgsLast1 : PaginationArgs :=
  { First := none, Last := some 1, After := none, Before := none }

/-- Arguments with a negative `first`. -/
def exArgsNegFirst : PaginationArgs :=
  { First := some (-1), Last := none, After := none, Before := none }

end Pagination

namespace Pagination

variable {α : Type}

/-- The edge list as it stands after only the `after` cut equals the edge
field of a run with no `before` cursor. -/
theorem applyCursors_none_edges (edges : List (Edge α)) (after : Option String) :
    (applyCursorsToAllEdges edges Option.none after).edges =
      match after with
      | some a =>
        match getCursorIndex edges a with
        | some i => edges.drop (i + 1)
        | none => edges
      | none => edges := by
  cases after with
  | none => rfl
  | some a =>
    cases h : getCursorIndex edges a <;>
      simp [applyCursorsToAllEdges, h]

/-- Claim C1: with `before` supplied, `elemsAfter` is true exactly when the
`before` cursor is found in the post-`after`-cut edge list at an index `i`
with `i ≠ (pre-cut length) - 1`. -/
theorem elemsAfter_iff_found_not_precut_last (edges : List (Edge α))
    (b : String) (after : Option String) :
    (applyCursorsToAllEdges edges (some b) after).elemsAfter = true ↔
      ∃ i, getCursorIndex (applyCursorsToAllEdges edges Option.none after).edges b = some i ∧
        (i : Int) ≠ (edges.length : Int) - 1 := by
  cases after with
  | none =>
    cases h : getCursorIndex edges b <;>
      simp [applyCursorsToAllEdges, h]
  | some a =>
    cases ha : getCursorIndex edges a with
    | none =>
      cases hb : getCursorIndex edges b <;>
        simp [applyCursorsToAllEdges, ha, hb]
    | some i =>
      cases hb : getCursorIndex (edges.drop (i + 1)) b <;>
        simp [applyCursorsToAllEdges, ha, hb]

/-- The error component of `paginateManually` depends only on the
`First`/`Last` checks: a negative value, then the both-set check. -/
theorem paginateManually_snd (c : Connection α) (args : PaginationArgs) :
    (paginateManually c args).2 =
      if safeInt64Ptr args.First < 0 ∨ safeInt64Ptr args.Last < 0 then
        some "first/last cannot be a negative integer"
      else if args.First.isSome ∧ args.Last.isSome then
        some "Cannot use both first and last together"
      else none := by
  simp only [paginateManually, Bool.or_eq_true, decide_eq_true_eq,
    Bool.and_eq_true, Option.isSome_iff_exists]
  split_ifs with h1 h2 h3 h4 <;> first | rfl | simp_all

/-- Claim C4: `paginateManually` reports a client error exactly when
`first` is negative, `last` is negative, or both `first` and `last` are
set; otherwise it succeeds. -/
theorem paginateManually_client_error_iff (c : Connection α)
    (args : PaginationArgs) :
    (paginateManually c args).2 ≠ none ↔
      ((∃ f, args.First = some f ∧ f < 0) ∨
        (∃ l, args.Last = some l ∧ l < 0) ∨
        (args.First ≠ none ∧ args.Last ≠ none)) := by
  rw [paginateManually_snd]
  obtain ⟨f, l, a, b⟩ := args
  cases f <;> cases l <;>
    simp [safeInt64Ptr, Option.isSome_iff_exists] <;>
    split_ifs <;> simp_all

/-- Claim C5: an empty node list short-circuits `getConnection` to the
zero-value `Connection` with no error, for any arguments whatsoever. -/
theorem getConnection_empty_nodes (cursorOf : α → String)
    (isExternallyManaged : Bool) (info : PaginationInfo)
    (args : PaginationArgs) :
    getConnection cursorOf isExternallyManaged ([] : List α) info args =
      (Connection.zero, none) := by
  simp [getConnection]

/-- Claim C9: `connectionContext.Validate` returns an error exactly when
one of the two externally-managed markers (embedded `PaginationArgs`,
returned `PaginationInfo`) is present without the other. -/
theorem validate_error_iff_exactly_one_marker (c : ConnectionContext) :
    c.Validate ≠ none ↔
      ((c.embedsPaginationArgs = true ∧ c.ReturnsPageInfo = false) ∨
        (c.embedsPaginationArgs = false ∧ c.ReturnsPageInfo = true)) := by
  obtain ⟨r, idx⟩ := c
  by_cases h : idx = -1 <;> cases r <;>
    simp [ConnectionContext.Validate, ConnectionContext.IsExternallyManaged,
      ConnectionContext.embedsPaginationArgs, h]

/-- Claim C10: whenever the windowing step reports a client error on a
non-empty node list, `getConnection` returns the zero-value `Connection`
together with the error: nothing of the partially assembled connection
escapes. -/
theorem getConnection_client_error_atomic (cursorOf : α → String)
    (isExternallyManaged : Bool) (nodes : List α) (info : PaginationInfo)
    (args : PaginationArgs) (hne : nodes ≠ [])
    (herr : (∃ f, args.First = some f ∧ f < 0) ∨
      (∃ l, args.Last = some l ∧ l < 0) ∨
      (args.First ≠ none ∧ args.Last ≠ none)) :
    (getConnection cursorOf isExternallyManaged nodes info args).1 =
        Connection.zero ∧
      (getConnection cursorOf isExternallyManaged nodes info args).2 ≠ none := by
  have hlen : nodes.length ≠ 0 := by
    simpa [List.length_eq_zero] using hne
  have hpm :
      (paginateManually (initialConnection cursorOf nodes args) args).2 ≠ none := by
    rw [paginateManually_snd]
    obtain ⟨f, l, a, b⟩ := args
    rcases herr with ⟨f', hf, hneg⟩ | ⟨l', hl, hneg⟩ | ⟨hf, hl⟩ <;>
      simp_all [safeInt64Ptr, Option.isSome_iff_exists] <;>
      split_ifs <;> simp_all
  cases hval : paginateManually (initialConnection cursorOf nodes args) args with
  | mk conn err =>
    rw [hval] at hpm
    cases err with
    | none => simp at hpm
    | some e => simp [getConnection, hlen, hval]

/-- Claim C3: after cursor application, `first` larger than the remaining
edge count truncates to the first `first` edges and forces
`HasNextPage = true`; symmetrically `last` truncates to the last `last`
edges and forces `HasPrevPage = true`; either way exactly that many edges
remain and no error is reported. -/
theorem paginateManually_first_last_truncate (c : Connection α)
    (args : PaginationArgs) :
    (∀ f : Int, args.First = some f → args.Last = none → 0 ≤ f →
      f < ((applyCursorsToAllEdges c.Edges args.Before args.After).edges.length : Int) →
      (paginateManually c args).2 = none ∧
      (paginateManually c args).1.Edges =
        (applyCursorsToAllEdges c.Edges args.Before args.After).edges.take f.toNat ∧
      ((paginateManually c args).1.Edges.length : Int) = f ∧
      (paginateManually c args).1.PageInfo.HasNextPage = true) ∧
    (∀ l : Int, args.Last = some l → args.First = none → 0 ≤ l →
      l < ((applyCursorsToAllEdges c.Edges args.Before args.After).edges.length : Int) →
      (paginateManually c args).2 = none ∧
      (paginateManually c args).1.Edges =
        (applyCursorsToAllEdges c.Edges args.Before args.After).edges.drop
          ((applyCursorsToAllEdges c.Edges args.Before args.After).edges.length -
            l.toNat) ∧
      ((paginateManually c args).1.Edges.length : Int) = l ∧
      (paginateManually c args).1.PageInfo.HasPrevPage = true) := by
  obtain ⟨fst, lst, a, b⟩ := args
  constructor
  · intro f hf hl hpos hlt
    cases hf
    cases hl
    have hnn : ¬ (f < 0) := not_lt.mpr hpos
    simp only [paginateManually, safeInt64Ptr] at *
    simp [hnn, hlt, List.length_take]
    omega
  · intro l hl hf hpos hlt
    cases hf
    cases hl
    have hnn : ¬ (l < 0) := not_lt.mpr hpos
    simp only [paginateManually, safeInt64Ptr] at *
    simp [hnn, hlt, List.length_drop]
    omega

/-- Closed instance of the truncation claim: on a two-edge connection,
`first: 1` keeps the first edge with `HasNextPage`, and `last: 1` keeps the
last edge with `HasPrevPage`. -/
theorem paginateManually_first_last_truncate_witness :
    ((paginateManually exConn2 exArgsFirst1).2 = none ∧
      (paginateManually exConn2 exArgsFirst1).1.Edges =
        (applyCursorsToAllEdges exConn2.Edges exArgsFirst1.Before
            exArgsFirst1.After).edges.take (1 : Int).toNat ∧
      ((paginateManually exConn2 exArgsFirst1).1.Edges.length : Int) = 1 ∧
      (paginateManually exConn2 exArgsFirst1).1.PageInfo.HasNextPage = true) ∧
    ((paginateManually exConn2 exArgsLast1).2 = none ∧
      (paginateManually exConn2 exArgsLast1).1.Edges =
        (applyCursorsToAllEdges exConn2.Edges exArgsLast1.Before
            exArgsLast1.After).edges.drop
          ((applyCursorsToAllEdges exConn2.Edges exArgsLast1.Before
              exArgsLast1.After).edges.length - (1 : Int).toNat) ∧
      ((paginateManually exConn2 exArgsLast1).1.Edges.length : Int) = 1 ∧
      (paginateManually exConn2 exArgsLast1).1.PageInfo.HasPrevPage = true) :=
  ⟨(paginateManually_first_last_truncate exConn2 exArgsFirst1).1 1 rfl rfl
      (by decide) (by decide),
    (paginateManually_first_last_truncate exConn2 exArgsLast1).2 1 rfl rfl
      (by decide) (by decide)⟩

/-- Closed instance of the atomic-error claim: both `first` and `last`
set on a one-node list yields the zero connection plus an error. -/
theorem getConnection_client_error_atomic_witness :
    (getConnection (fun s => s) false ["n1"] PaginationInfo.zero
          { First := some 1, Last := some 1, After := none, Before := none }).1 =
        Connection.zero ∧
      (getConnection (fun s => s) false ["n1"] PaginationInfo.zero
          { First := some 1, Last := some 1, After := none, Before := none }).2 ≠
        none :=
  getConnection_client_error_atomic (fun s => s) false ["n1"] PaginationInfo.zero
    { First := some 1, Last := some 1, After := none, Before := none }
    (by decide) (Or.inr (Or.inr ⟨by decide, by decide⟩))

/-- `setCursors` only writes `StartCursor`/`EndCursor`: edges, total count
and the two page flags are untouched. -/
theorem setCursors_preserves (c : Connection α) :
    (setCursors c).Edges = c.Edges ∧
      (setCursors c).TotalCount = c.TotalCount ∧
      (setCursors c).PageInfo.HasNextPage = c.PageInfo.HasNextPage ∧
      (setCursors c).PageInfo.HasPrevPage = c.PageInfo.HasPrevPage := by
  unfold setCursors
  split <;> simp_all

/-- Claim C2 counterexample: in externally-managed mode, `first: 1` over a
two-node list leaves only one edge in the returned connection, not the
full edge list the claim promises. -/
theorem getConnection_external_slices_counterexample :
    (getConnection (fun s => s) true ["n1", "n2"] PaginationInfo.zero
          exArgsFirst1).1.Edges ≠
      getEdges (fun s => s) ["n1", "n2"] := by
  decide

/-- Claim C2 as amended: in externally-managed mode `getConnection` still
runs the windowing step, so the returned `Edges` are the windowed (possibly
sliced) edges; only `HasNextPage`, `HasPrevPage` and `TotalCount` are then
overwritten from the resolver-supplied `PaginationInfo`. -/
theorem getConnection_external_windowed_overwritten (cursorOf : α → String)
    (nodes : List α) (info : PaginationInfo) (args : PaginationArgs)
    (hne : nodes ≠ [])
    (hok : (paginateManually (initialConnection cursorOf nodes args) args).2 =
      none) :
    (getConnection cursorOf true nodes info args).2 = none ∧
      (getConnection cursorOf true nodes info args).1.Edges =
        (paginateManually (initialConnection cursorOf nodes args) args).1.Edges ∧
      (getConnection cursorOf true nodes info args).1.PageInfo.HasNextPage =
        info.HasNextPage ∧
      (getConnection cursorOf true nodes info args).1.PageInfo.HasPrevPage =
        info.HasPrevPage ∧
      (getConnection cursorOf true nodes info args).1.TotalCount =
        info.TotalCount := by
  have hlen : nodes.length ≠ 0 := by
    simpa [List.length_eq_zero] using hne
  cases hval : paginateManually (initialConnection cursorOf nodes args) args with
  | mk conn err =>
    rw [hval] at hok
    simp only at hok
    subst hok
    obtain ⟨hE, hT, hN, hP⟩ := setCursors_preserves conn
    simp [getConnection, hlen, hval, externallySetPageInfo, hE]

/-- Closed instance of the amended C2 claim at a two-node list with
`first: 1` in externally-managed mode. -/
theorem getConnection_external_windowed_overwritten_witness :
    (getConnection (fun s => s) true ["n1", "n2"] PaginationInfo.zero
        exArgsFirst1).2 = none ∧
      (getConnection (fun s => s) true ["n1", "n2"] PaginationInfo.zero
          exArgsFirst1).1.Edges =
        (paginateManually
            (initialConnection (fun s => s) ["n1", "n2"] exArgsFirst1)
            exArgsFirst1).1.Edges ∧
      (getConnection (fun s => s) true ["n1", "n2"] PaginationInfo.zero
          exArgsFirst1).1.PageInfo.HasNextPage = PaginationInfo.zero.HasNextPage ∧
      (getConnection (fun s => s) true ["n1", "n2"] PaginationInfo.zero
          exArgsFirst1).1.PageInfo.HasPrevPage = PaginationInfo.zero.HasPrevPage ∧
      (getConnection (fun s => s) true ["n1", "n2"] PaginationInfo.zero
          exArgsFirst1).1.TotalCount = PaginationInfo.zero.TotalCount :=
  getConnection_external_windowed_overwritten (fun s => s) ["n1", "n2"]
    PaginationInfo.zero exArgsFirst1 (by decide) (by decide)

/-- Claim C6: once `getConnection` succeeds, a non-nil resolver error is
returned verbatim instead of the synthesized connection; and the check
happens after assembly, so an assembly error is returned even when the
resolver also erred. -/
theorem extractPaginated_resolver_error_priority (cursorOf : α → String)
    (isExternallyManaged : Bool) (nodes : List α) (info : PaginationInfo)
    (pargs : PaginationArgs) (resolverErr : Option String) (e : String) :
    ((getConnection cursorOf isExternallyManaged nodes info pargs).2 = none →
      extractPaginatedRetAndErr cursorOf isExternallyManaged true nodes info
          (some e) pargs = Except.error e) ∧
    (∀ e2, (getConnection cursorOf isExternallyManaged nodes info pargs).2 =
        some e2 →
      extractPaginatedRetAndErr cursorOf isExternallyManaged true nodes info
          resolverErr pargs = Except.error e2) := by
  cases hg : getConnection cursorOf isExternallyManaged nodes info pargs with
  | mk conn err =>
    constructor
    · intro h
      simp only at h
      subst h
      simp [extractPaginatedRetAndErr, hg]
    · intro e2 h
      simp only at h
      subst h
      simp [extractPaginatedRetAndErr, hg]

/-- Closed instance of the resolver-error claim: a resolver error `boom` is
returned verbatim when assembly succeeds, and the assembly error wins when
windowing fails on a negative `first`. -/
theorem extractPaginated_resolver_error_priority_witness :
    extractPaginatedRetAndErr (fun s => s) false true ["n1"]
        PaginationInfo.zero (some "boom") PaginationArgs.zero =
      Except.error "boom" ∧
    extractPaginatedRetAndErr (fun s => s) false true ["n1"]
        PaginationInfo.zero (some "boom") exArgsNegFirst =
      Except.error "first/last cannot be a negative integer" :=
  ⟨(extractPaginated_resolver_error_priority (fun s => s) false ["n1"]
        PaginationInfo.zero PaginationArgs.zero (some "boom") "boom").1
      (by decide),
    (extractPaginated_resolver_error_priority (fun s => s) false ["n1"]
        PaginationInfo.zero exArgsNegFirst (some "boom") "boom").2
      "first/last cannot be a negative integer" (by decide)⟩

/-- Claim C7: a cursor string absent from the edge set it is searched in is
a no-op for its side: an unmatched `after` behaves as if `after` were
absent, and an unmatched `before` (searched in the post-`after`-cut set)
behaves as if `before` were absent; no truncation, no flag, and
`applyCursorsToAllEdges` has no error path at all. -/
theorem applyCursors_not_found_noop (edges : List (Edge α))
    (before : Option String) (a : String) (after : Option String)
    (b : String) :
    (getCursorIndex edges a = none →
      applyCursorsToAllEdges edges before (some a) =
        applyCursorsToAllEdges edges before none) ∧
    (getCursorIndex (applyCursorsToAllEdges edges Option.none after).edges b =
        none →
      applyCursorsToAllEdges edges (some b) after =
        applyCursorsToAllEdges edges Option.none after) := by
  constructor
  · intro h
    simp [applyCursorsToAllEdges, h]
  · intro h
    cases after with
    | none =>
      simp [applyCursorsToAllEdges] at h
      simp [applyCursorsToAllEdges, h]
    | some a2 =>
      cases ha : getCursorIndex edges a2 with
      | none =>
        simp [applyCursorsToAllEdges, ha] at h
        simp [applyCursorsToAllEdges, ha, h]
      | some i =>
        simp [applyCursorsToAllEdges, ha] at h
        simp [applyCursorsToAllEdges, ha, h]

/-- Closed instance of the cursor-miss claim on a one-edge list and the
absent cursor string `zz`. -/
theorem applyCursors_not_found_noop_witness :
    applyCursorsToAllEdges exEdges1 Option.none (some "zz") =
        applyCursorsToAllEdges exEdges1 Option.none none ∧
      applyCursorsToAllEdges exEdges1 (some "zz") Option.none =
        applyCursorsToAllEdges exEdges1 Option.none Option.none :=
  ⟨(applyCursors_not_found_noop exEdges1 Option.none "zz" Option.none "zz").1
      (by decide),
    (applyCursors_not_found_noop exEdges1 Option.none "zz" Option.none "zz").2
      (by decide)⟩

/-- A left fold that only ever appends to its accumulator is the
concatenation of the per-element contributions. -/
theorem foldl_append_eq_bind {β γ : Type} (f : β → List γ) (l : List β) :
    ∀ init : List γ,
      l.foldl (fun acc x => acc ++ f x) init = init ++ l.flatMap f := by
  induction l with
  | nil => intro init; simp
  | cons x xs ih =>
    intro init
    simp only [List.foldl_cons, List.flatMap_cons]
    rw [ih]
    simp [List.append_assoc]

/-- Each iteration of the `getPages` loop appends exactly
`pageContrib limit (edges.length - 1)` of the current indexed edge. -/
theorem getPages_eq_bind (edges : List (Edge α)) (limit : Int) :
    getPages edges limit =
      edges.enum.flatMap (pageContrib limit (edges.length - 1)) := by
  have hfun :
      (fun (pages : List String) (ie : Nat × Edge α) =>
        let pages := if ie.1 = 0 then pages ++ [""] else pages
        if limit = 0 then pages
        else if ie.1 = edges.length - 1 then pages
        else if ((ie.1 : Int) + 1).tmod limit = 0 then pages ++ [ie.2.Cursor]
        else pages) =
      fun pages ie => pages ++ pageContrib limit (edges.length - 1) ie := by
    funext pages ie
    simp only [pageContrib]
    split_ifs <;> simp
  rw [getPages, hfun, foldl_append_eq_bind]
  simp

/-- The contribution of one indexed edge is `""` on index zero followed by
the boundary-cursor selection of the claim. -/
theorem pageContrib_eq_sel (limit : Int) (lastIdx : Nat) (ie : Nat × Edge α) :
    pageContrib limit lastIdx ie =
      (if ie.1 = 0 then [""] else []) ++
        (boundaryCursorSel limit lastIdx ie).toList := by
  simp only [pageContrib, boundaryCursorSel]
  split_ifs <;> simp_all

/-- Away from index 0, the per-edge contributions concatenate to the
filter-map of the boundary-cursor selection. -/
theorem enumFrom_bind_pageContrib (limit : Int) (lastIdx : Nat)
    (l : List (Edge α)) :
    ∀ n : Nat, n ≠ 0 →
      (l.enumFrom n).flatMap (pageContrib limit lastIdx) =
        (l.enumFrom n).filterMap (boundaryCursorSel limit lastIdx) := by
  induction l with
  | nil => intro n h; rfl
  | cons e rest ih =>
    intro n h
    have hrec := ih (n + 1) (Nat.succ_ne_zero n)
    simp only [List.enumFrom_cons, List.flatMap_cons, List.filterMap_cons,
      pageContrib_eq_sel, hrec]
    cases hsel : boundaryCursorSel limit lastIdx (n, e) <;> simp [h, hsel]

/-- Claim C8 as amended: for every non-empty edge list and every limit,
`getPages` is `""` followed by, in order, the cursor of each edge at
0-based index `i` with `limit ≠ 0`, `i` not the last index, and
`(i+1) % limit = 0`. (On the empty edge list `getPages` returns `[]`.) -/
theorem getPages_nonempty_characterization (edges : List (Edge α))
    (limit : Int) (h : edges ≠ []) :
    getPages edges limit =
      "" :: edges.enum.filterMap (boundaryCursorSel limit (edges.length - 1)) := by
  cases edges with
  | nil => exact absurd rfl h
  | cons e rest =>
    rw [getPages_eq_bind]
    simp only [List.enum_cons, List.flatMap_cons, List.filterMap_cons,
      pageContrib_eq_sel,
      enumFrom_bind_pageContrib limit ((e :: rest).length - 1) rest 1
        (Nat.one_ne_zero)]
    cases hsel : boundaryCursorSel limit ((e :: rest).length - 1) (0, e) <;>
      simp [hsel]

/-- Claim C8 counterexample: on the empty edge list `getPages` returns the
empty list, whose first entry is not `""`. -/
theorem getPages_empty_counterexample :
    (getPages ([] : List (Edge Nat)) 2).head? ≠ some "" := by
  decide

/-- Closed instance of the page-marker claim: `limit = 2` over the five
example edges yields `""` plus the cursors of the 2nd and 4th edges
(0-based indices 1 and 3). -/
theorem getPages_nonempty_characterization_witness :
    getPages exEdges5 2 = ["", "c2", "c4"] := by
  rw [getPages_nonempty_characterization exEdges5 2 (by decide)]
  decide

end Pagination
